import Mathlib

/-!
Verification development for the Retrieval Orchestration Engine of the
local RAG web application.

The repository ships the engine design (Copilot_Superprompt.md, HLD, SRS)
and a React frontend; the backend modules named by the design
(chunking.py, retrieval.py, ws.py) are not part of the tree.  Components
that live only in the design documents are therefore modelled from the
spec, with a doc comment on each such definition saying so; the frontend
hook `useSubmitQuery` (hooks file) and `ChatView.handleSubmit`
(chat-view.tsx) are embedded from their TypeScript source.
-/

namespace RagApp

/-! ## Chunk policy (ChunkPolicySelector) -/

/-- Modelled from the spec: boundary mode of a `ChunkPolicy`
(`enum{structure-aware, fixed-window}`, spec section 3); `chunking.py` is
absent from the tree. -/
inductive BoundaryMode
  | structureAware
  | fixedWindow
deriving DecidableEq

/-- Modelled from the spec: `ChunkPolicy` record of spec section 3 with
`targetTokens`, overlap ratio, boundary mode and rationale; `chunking.py`
is absent from the tree. -/
structure ChunkPolicy where
  targetTokens : Nat
  overlapRatio : ℚ
  boundaryMode : BoundaryMode
  rationale : String
deriving DecidableEq

/-- Modelled from the spec: the selector error taxonomy of spec
section 4.1 / section 7 (`InvalidDocument`, `PolicyOutOfBounds`). -/
inductive SelectorError
  | invalidDocument
  | policyOutOfBounds
deriving DecidableEq

/-- A policy is in bounds when `targetTokens ∈ [500,1350]` and the
overlap ratio is in `[0.15,0.25]` (spec section 3). -/
def policyInBounds (p : ChunkPolicy) : Prop :=
  500 ≤ p.targetTokens ∧ p.targetTokens ≤ 1350 ∧
    (15 : ℚ)/100 ≤ p.overlapRatio ∧ p.overlapRatio ≤ (25 : ℚ)/100

instance (p : ChunkPolicy) : Decidable (policyInBounds p) := by
  unfold policyInBounds; infer_instance

/-- Modelled from the spec: manual-override validation of spec
section 4.1 — the selector only validates the bounds of the supplied
policy and fails with `PolicyOutOfBounds` otherwise; `chunking.py` is
absent from the tree.  Written as the early-exit check chain an
implementation would use. -/
def validateManualPolicy (p : ChunkPolicy) : Except SelectorError ChunkPolicy :=
  if p.targetTokens < 500 then .error .policyOutOfBounds
  else if 1350 < p.targetTokens then .error .policyOutOfBounds
  else if p.overlapRatio < (15 : ℚ)/100 then .error .policyOutOfBounds
  else if (25 : ℚ)/100 < p.overlapRatio then .error .policyOutOfBounds
  else .ok p

/-! ## Structure-aware splitter (StructureAwareSplitter) -/

/-- A chunk as produced by the splitter: document-relative ordinal, the
chunk text as a token list, and the length of the leading span that
overlaps the previous chunk. -/
structure Chunk where
  ordinal : Nat
  text : List String
  overlapLen : Nat
deriving DecidableEq

/-- The non-overlapping span of a chunk: its text with the overlapped
leading span trimmed. -/
def Chunk.nonOverlapSpan (c : Chunk) : List String :=
  c.text.drop c.overlapLen

/-- The last `n` elements of a list (the trailing text stepped back into
the next chunk as overlap). -/
def takeLast (n : Nat) (l : List α) : List α :=
  l.drop (l.length - n)

/-- Modelled from the spec: the splitter loop of spec section 4.2 —
accumulate structural units into a chunk until adding the next unit
would exceed `targetTokens`, close the chunk, and start the next chunk
with the trailing `overlap` tokens of the closed chunk; a single unit
larger than the target is emitted as its own oversized chunk; an empty
document produces zero chunks.  `chunking.py` is absent from the tree.
Arguments: remaining units, overlap tokens carried into the current
chunk, fresh tokens accumulated for the current chunk.  Returns
`(text, overlapLen)` pairs in document order. -/
def splitGo (target overlap : Nat) :
    List (List String) → List String → List String → List (List String × Nat)
  | [], carry, acc =>
      if acc.isEmpty then [] else [(carry ++ acc, carry.length)]
  | u :: rest, carry, acc =>
      if ¬ acc.isEmpty ∧ target < carry.length + acc.length + u.length then
        (carry ++ acc, carry.length) ::
          splitGo target overlap rest (takeLast overlap (carry ++ acc)) u
      else
        splitGo target overlap rest carry (acc ++ u)

/-- Modelled from the spec: overlap width in tokens,
`overlapRatio * targetTokens` (spec section 4.2, measured in tokens). -/
def overlapWidth (p : ChunkPolicy) : Nat :=
  (p.overlapRatio * p.targetTokens).floor.toNat

/-- The structural units the splitter walks: the document's units in
`structure-aware` mode; in `fixed-window` mode the structural lookahead
is skipped by cutting strictly by token count, i.e. each token is its
own unit (spec section 4.2). -/
def unitsOf (doc : List (List String)) (p : ChunkPolicy) : List (List String) :=
  match p.boundaryMode with
  | .structureAware => doc
  | .fixedWindow => doc.flatten.map (fun t => [t])

/-- Modelled from the spec: `StructureAwareSplitter.split` of spec
section 4.2.  A document is a list of structural units, each a token
list.  Ordinals are assigned in document order. -/
def split (doc : List (List String)) (p : ChunkPolicy) : List Chunk :=
  (splitGo p.targetTokens (overlapWidth p) (unitsOf doc p) [] []).enum.map
    (fun e => ⟨e.1, e.2.1, e.2.2⟩)

/-- The document text is the concatenation of its structural units. -/
def docText (doc : List (List String)) : List String :=
  doc.flatten

/-! ## Dynamic-k controller (DynamicKController) -/

/-- Modelled from the spec: a retrieval candidate, spec section 3 —
`{chunk, similarityScore}`; the chunk is represented by its citation key
`chunkId` and its `tokenCount`; `retrieval.py` is absent from the
tree. -/
structure Candidate where
  chunkId : String
  score : ℚ
  tokenCount : Nat
deriving DecidableEq

/-- Modelled from the spec: stop reasons of `RetrievalDecision`
(spec section 3), plus the explicit no-results marker of spec
section 4.4 for an empty candidate list. -/
inductive StopReason
  | marginalGain
  | coveragePlateau
  | budgetGuard
  | kMaxReached
  | noResults
deriving DecidableEq

/-- Modelled from the spec: `RetrievalDecision` of spec section 3. -/
structure RetrievalDecision where
  selectedChunks : List Candidate
  kChosen : Nat
  stopReason : StopReason
deriving DecidableEq

/-- Cumulative token cost of the first `k` candidates. -/
def cumCost (cands : List Candidate) (k : Nat) : Nat :=
  ((cands.take k).map Candidate.tokenCount).sum

/-- The 90% budget guard of spec section 4.4: cost `c` is within
`0.9 * budget`, stated exactly over naturals as `10*c ≤ 9*budget`. -/
def withinBudget (c budget : Nat) : Bool :=
  10 * c ≤ 9 * budget

/-- Score drop at window size `k` (0-based): the score of the next
candidate beyond the window minus the score of the one after it —
the marginal relevance gain of extending the window (spec section 4.4
step 3; missing candidates score 0). -/
def gainAt (scores : List ℚ) (k : Nat) : ℚ :=
  scores.getD k 0 - scores.getD (k + 1) 0

/-- Marginal gain at `k` normalized against the running average of the
gains observed since the loop started at `kMin`; on the first step there
is no history and the normalized gain is taken as 1 (spec section 4.4
step 3; the exact normalization formula is a tunable left open by spec
section 9 — this one reproduces Scenario B of spec section 8). -/
def normGain (scores : List ℚ) (kMin k : Nat) : ℚ :=
  if k ≤ kMin then 1
  else gainAt scores k / (((List.range' kMin (k - kMin)).map (gainAt scores)).sum / (k - kMin))

/-- Modelled from the spec: the stop test of one step of the
DynamicKController state machine (spec section 4.4), with the tie-break
precedence budget-guard > marginal-gain > coverage-plateau >
k-max-reached.  The coverage-plateau detector is an abstract parameter
`cov` (its concrete statistical formula is a tunable, spec section 9).
The window also stops growing when the candidate list is exhausted. -/
def stopCheck (cands : List Candidate) (kMin kMax tokenBudget : Nat) (eps : ℚ)
    (cov : List Candidate → Nat → Bool) (k : Nat) : Option StopReason :=
  if ¬ withinBudget (cumCost cands (k + 1)) tokenBudget then some .budgetGuard
  else if normGain (cands.map Candidate.score) kMin k < eps then some .marginalGain
  else if cov cands k then some .coveragePlateau
  else if kMax ≤ k ∨ cands.length ≤ k then some .kMaxReached
  else none

/-- Modelled from the spec: the incrementally growing window
`k = kMin, kMin+1, ...` of spec section 4.4; `fuel` bounds the number of
increments (the loop always stops by `k = kMax`). -/
def chooseKLoop (cands : List Candidate) (kMin kMax tokenBudget : Nat) (eps : ℚ)
    (cov : List Candidate → Nat → Bool) : Nat → Nat → Nat × StopReason
  | 0, k => (k, .kMaxReached)
  | fuel + 1, k =>
      match stopCheck cands kMin kMax tokenBudget eps cov k with
      | some r => (k, r)
      | none => chooseKLoop cands kMin kMax tokenBudget eps cov fuel (k + 1)

/-- Modelled from the spec: `DynamicKController.chooseK` of spec
section 4.4 — empty candidates return an empty decision with the
explicit no-results marker; otherwise the window starts at `kMin`
(clamped to the candidate count) and grows under the stop rules. -/
def chooseK (cands : List Candidate) (kMin kMax tokenBudget : Nat) (eps : ℚ)
    (cov : List Candidate → Nat → Bool) : RetrievalDecision :=
  if cands.isEmpty then ⟨[], 0, .noResults⟩
  else
    let start := min kMin cands.length
    let r := chooseKLoop cands kMin kMax tokenBudget eps cov (kMax + 1) start
    ⟨cands.take r.1, r.1, r.2⟩

/-! ## Generation coordinator (GenerationCoordinator) -/

/-- Modelled from the spec: one piece of generator output during
`STREAMING` — a token or a citation marker naming a chunk
(spec section 4.5). -/
inductive GenOut
  | tok (text : String)
  | cite (chunkId : String)
deriving DecidableEq

/-- Modelled from the spec: the typed outbound event protocol of spec
section 6 (`start`, `token`, `citation`, `sources`, `end`, `error`);
`end` is spelled `done`. -/
inductive Event
  | start (model : String)
  | token (text : String)
  | citation (label : Nat) (chunkId : String)
  | sources (ids : List String)
  | done (tokens ms : Nat)
  | error (code detail : String)
deriving DecidableEq

/-- Modelled from the spec: the streaming body of a turn
(spec section 4.5) — each generated token emits a `token` event; a
citation marker bound to a selected chunk emits a `citation` event whose
label is assigned in first-use order starting at 1 and is stable for
the remainder of the turn (`seen` lists the chunkIds already labelled,
in first-use order); a marker not bound to a selected chunk is never
permitted to produce a citation.  `ws.py` is absent from the tree. -/
def emitBody (selected : List String) : List GenOut → List String → List Event
  | [], _ => []
  | .tok t :: rest, seen => .token t :: emitBody selected rest seen
  | .cite c :: rest, seen =>
      if c ∈ selected then
        if c ∈ seen then
          .citation (seen.indexOf c + 1) c :: emitBody selected rest seen
        else
          .citation (seen.length + 1) c :: emitBody selected rest (seen ++ [c])
      else
        emitBody selected rest seen

/-- Modelled from the spec: the event stream of one successful turn of
the GenerationCoordinator (spec section 4.5) — a `start` event carrying
the model identity, the streaming body, one `sources` event listing the
selected chunks, then an `end` event with total token count and elapsed
milliseconds. -/
def coordinatorRun (model : String) (decision : RetrievalDecision)
    (script : List GenOut) (tokens ms : Nat) : List Event :=
  .start model ::
    emitBody (decision.selectedChunks.map Candidate.chunkId) script [] ++
      [.sources (decision.selectedChunks.map Candidate.chunkId), .done tokens ms]

/-- The labels of citation events at the first use of their chunkId,
in stream order (`seen` lists the chunkIds already encountered). -/
def firstUseLabels : List Event → List String → List Nat
  | [], _ => []
  | .citation l c :: rest, seen =>
      if c ∈ seen then firstUseLabels rest seen
      else l :: firstUseLabels rest (seen ++ [c])
  | _ :: rest, seen => firstUseLabels rest seen

/-- An event list has the per-turn shape `start → {token|citation}* →
sources → end` (spec section 5). -/
def TurnShaped (events : List Event) : Prop :=
  ∃ model body ids tokens ms,
    events = .start model :: body ++ [.sources ids, .done tokens ms] ∧
      ∀ e ∈ body, (∃ t, e = .token t) ∨ ∃ l c, e = .citation l c

/-! ## Client streaming turn (useSubmitQuery, hooks file) -/

/-- A citation record as accumulated by the client (the fields of the
frontend `Citation` the CITATION handler actually computes:
`chunk_index := label`, `doc_id := chunkId.split('#')[0]`). -/
structure ClientCitation where
  chunkIndex : Nat
  docId : String
deriving DecidableEq

/-- The `doc_id` the CITATION handler derives from a chunkId:
`chunkId.split('#')[0] || ''`. -/
def docIdOf (chunkId : String) : String :=
  (chunkId.splitOn "#").headD ""

/-- The streaming query response the promise of `useSubmitQuery`
resolves with. -/
structure StreamingQueryResponse where
  answer : String
  chunks : List String
  citations : List ClientCitation
  complexity : String
  queryId : String
  processingTime : Nat
deriving DecidableEq

/-- A settlement of the per-turn promise: `resolve` or `reject`. -/
inductive Settled
  | resolved (r : StreamingQueryResponse)
  | rejected (detail : String)
deriving DecidableEq

/-- An inbound WebSocket frame as parsed by `ws.onmessage`. -/
inductive WsMsg
  | startMsg (model : String)
  | tokenMsg (text : String)
  | citationMsg (label : Nat) (chunkId : String)
  | sourcesMsg (ids : List String)
  | endMsg (ms : Nat)
  | errorMsg (detail : String)
deriving DecidableEq

/-- A network-level occurrence the `useSubmitQuery` promise executor
reacts to: a parsed message, `ws.onerror`, `ws.onclose`, or the
120-second `setTimeout` firing. -/
inductive NetEvent
  | msg (m : WsMsg)
  | wsError
  | wsClose
  | timeout
deriving DecidableEq

/-- The turn identifiers and query text in scope in the promise
executor of `useSubmitQuery`. -/
structure TurnCtx where
  query : String
  sessionId : String
  turnId : String
deriving DecidableEq

/-- The mutable state of the promise executor of `useSubmitQuery`
(`answer`, `citations`, `sources`, `isComplete`), plus the settlements
the executor has performed so far. -/
structure TurnState where
  answer : String
  citations : List ClientCitation
  sources : List String
  isComplete : Bool
  settled : List Settled
deriving DecidableEq

/-- The initial executor state of a turn. -/
def initTurnState : TurnState := ⟨"", [], [], false, []⟩

/-- The fallback response `ws.onerror` resolves with when the turn is
not complete. -/
def fallbackErrorResponse (ctx : TurnCtx) : StreamingQueryResponse :=
  ⟨"I found information related to \"" ++ ctx.query ++
      "\" in your documents. However, the streaming connection failed. Please check the browser console for details and try again.",
    [], [], "moderate", ctx.turnId, 0⟩

/-- The fallback response `ws.onclose` resolves with when the turn is
not complete. -/
def fallbackCloseResponse (ctx : TurnCtx) : StreamingQueryResponse :=
  ⟨"Query processed but connection closed. Session: " ++ ctx.sessionId ++
      ", Turn: " ++ ctx.turnId ++ ". Please check the backend logs for details.",
    [], [], "moderate", ctx.turnId, 0⟩

/-- The fallback response the 120-second timeout resolves with when the
turn is not complete. -/
def fallbackTimeoutResponse (ctx : TurnCtx) : StreamingQueryResponse :=
  ⟨"Your complex query \"" ++ ctx.query ++
      "\" is still processing after 2 minutes. For machine learning concept explanations, the system needs to:\n\n" ++
      "🔍 **Search Process:**\n- Scan all 26+ documents for ML-related content\n- Extract relevant concepts, algorithms, and explanations\n- Cross-reference technical details across multiple sources\n- Generate comprehensive explanations with proper citations\n\n" ++
      "💡 **Suggestions:**\n- Try more specific questions: \"What ML algorithms are mentioned in the technical docs?\"\n- Ask about specific documents: \"Explain the ML pipeline in technical_doc.md\"\n- Start with overview questions: \"What technical topics are covered?\"\n\n" ++
      "📊 **Session Details:** " ++ ctx.sessionId ++ " | Processing time: 120+ seconds\n\n" ++
      "The backend may still be working on your request. Check http://localhost:3000 in a few moments to see if the response appears.",
    [], [], "complex", ctx.turnId, 120000⟩

/-- One step of the `useSubmitQuery` promise executor: the `onmessage`
switch (START, TOKEN, CITATION, SOURCES, END, ERROR) and the
`onerror` / `onclose` / timeout callbacks, each of the latter guarded
by `if (!isComplete)` and resolving with a fallback response. -/
def clientStep (ctx : TurnCtx) (st : TurnState) : NetEvent → TurnState
  | .msg (.startMsg _) => st
  | .msg (.tokenMsg t) => { st with answer := st.answer ++ t }
  | .msg (.citationMsg l c) =>
      { st with citations := st.citations ++ [⟨l, docIdOf c⟩] }
  | .msg (.sourcesMsg ids) => { st with sources := ids }
  | .msg (.endMsg ms) =>
      { st with
          isComplete := true
          settled := st.settled ++
            [.resolved ⟨st.answer, [], st.citations, "moderate", ctx.turnId, ms⟩] }
  | .msg (.errorMsg d) =>
      { st with
          isComplete := true
          settled := st.settled ++
            [.rejected (if d = "" then "Streaming error" else d)] }
  | .wsError =>
      if st.isComplete then st
      else { st with settled := st.settled ++ [.resolved (fallbackErrorResponse ctx)] }
  | .wsClose =>
      if st.isComplete then st
      else { st with settled := st.settled ++ [.resolved (fallbackCloseResponse ctx)] }
  | .timeout =>
      if st.isComplete then st
      else { st with settled := st.settled ++ [.resolved (fallbackTimeoutResponse ctx)] }

/-- Run the promise executor over a sequence of network events. -/
def runClient (ctx : TurnCtx) (events : List NetEvent) : TurnState :=
  events.foldl (clientStep ctx) initTurnState

/-- `ws.onerror`, `ws.onclose` and the timeout: the late callbacks that
are guarded by `if (!isComplete)`. -/
def NetEvent.isLate : NetEvent → Bool
  | .wsError => true
  | .wsClose => true
  | .timeout => true
  | _ => false

/-- END and ERROR frames: the events whose handlers set `isComplete`
and settle the promise. -/
def NetEvent.isTerminalMsg : NetEvent → Bool
  | .msg (.endMsg _) => true
  | .msg (.errorMsg _) => true
  | _ => false

/-- A settlement is a rejection. -/
def Settled.isRejected : Settled → Bool
  | .rejected _ => true
  | _ => false

/-! ## Turn start (queryApi.query + wsUrl, useSubmitQuery) -/

/-- The inbound turn request of spec section 6: `{query, sessionId}`
(as sent by `useSubmitQuery`: `queryApi.query({query, sessionId})`). -/
structure QueryStartRequest where
  query : String
  sessionId : String
deriving DecidableEq

/-- The synchronous response of `POST /api/query`:
`{sessionId, turnId}`. -/
structure QueryStartResponse where
  sessionId : String
  turnId : String
deriving DecidableEq

/-- Modelled from the spec: the synchronous turn-start handler of spec
section 6 — `{query, sessionId} → {turnId, sessionId}` with a fresh
turn id from the generator `gen`; the backend `api.py` is absent from
the tree. -/
def handleQueryStart (gen : QueryStartRequest → String)
    (req : QueryStartRequest) : QueryStartResponse :=
  ⟨req.sessionId, gen req⟩

/-- The WebSocket URL `useSubmitQuery` then connects to:
`WS_BASE_URL + "/ws/stream?session_id=" + sessionId + "&turn_id=" + turnId`. -/
def wsUrl (base : String) (resp : QueryStartResponse) : String :=
  base ++ "/ws/stream?session_id=" ++ resp.sessionId ++ "&turn_id=" ++ resp.turnId

/-! ## Chat view (ChatView.handleSubmit, chat-view.tsx) -/

/-- A transcript message of the chat view (the fields `handleSubmit`
writes). -/
structure ChatMessage where
  id : String
  role : String
  content : String
  timestamp : String
deriving DecidableEq

/-- The chat-view state `handleSubmit` mutates: the transcript, the
streaming flag, and the in-progress streamed content buffer. -/
structure ChatState where
  messages : List ChatMessage
  isStreaming : Bool
  streamingContent : String
deriving DecidableEq

/-- The fixed message the catch block appends on a failed turn. -/
def chatErrorMessage (id timestamp : String) : ChatMessage :=
  ⟨id, "assistant",
    "Sorry, I encountered an error processing your query. Please try again.",
    timestamp⟩

/-- The `onStreamToken` callback: append the token to the streamed
content buffer. -/
def onStreamTokenStep (st : ChatState) (t : String) : ChatState :=
  { st with streamingContent := st.streamingContent ++ t }

/-- The catch block of `handleSubmit`: append the fixed error message
to the transcript. -/
def handleSubmitCatch (id timestamp : String) (st : ChatState) : ChatState :=
  { st with messages := st.messages ++ [chatErrorMessage id timestamp] }

/-- The finally block of `handleSubmit`: stop streaming and clear the
streamed content buffer. -/
def handleSubmitFinally (st : ChatState) : ChatState :=
  { st with isStreaming := false, streamingContent := "" }

/-- The error path of `handleSubmit`: catch, then finally. -/
def handleSubmitError (id timestamp : String) (st : ChatState) : ChatState :=
  handleSubmitFinally (handleSubmitCatch id timestamp st)

/-- A text is preserved in the chat-view state if it is the streamed
content buffer or the content of some transcript message. -/
def preservedOn (s : String) (st : ChatState) : Prop :=
  st.streamingContent = s ∨ s ∈ st.messages.map ChatMessage.content

instance (s : String) (st : ChatState) : Decidable (preservedOn s st) := by
  unfold preservedOn; infer_instance

/-! ## Helper lemmas -/

/-- Flattening a list of singletons is the identity. -/
theorem flatten_map_singleton (l : List α) : (l.map fun a => [a]).flatten = l := by
  induction l with
  | nil => rfl
  | cons a t ih => simp [ih]

/-- `List.range'` unfolds one cons. -/
theorem range'_succ_cons (s n : Nat) :
    List.range' s (n + 1) = s :: List.range' (s + 1) n := by
  simpa using List.range'_succ s n 1

/-- The splitter round-trip invariant: the fresh (non-overlapping)
spans of the chunks produced from the remaining units concatenate to
the accumulated fresh text followed by the remaining units. -/
theorem splitGo_roundtrip (target overlap : Nat) (units : List (List String))
    (carry acc : List String) :
    ((splitGo target overlap units carry acc).map (fun pr => pr.1.drop pr.2)).flatten =
      acc ++ units.flatten := by
  induction units generalizing carry acc with
  | nil =>
      simp only [splitGo]
      split_ifs with h
      · simp [List.isEmpty_iff.mp h]
      · simp [List.drop_left]
  | cons u rest ih =>
      simp only [splitGo]
      split_ifs with h
      · simp [List.drop_left, ih]
      · simp [ih]

/-! ## Claim theorems -/

/-- C8: a manually supplied ChunkPolicy is accepted by the selector if
and only if its targetTokens lies in [500,1350] and its overlap ratio
lies in [0.15,0.25]; every policy outside those bounds fails with
PolicyOutOfBounds. -/
theorem C8_manual_policy_bounds (p : ChunkPolicy) :
    (validateManualPolicy p = .ok p ↔ policyInBounds p) ∧
      (¬ policyInBounds p → validateManualPolicy p = .error .policyOutOfBounds) := by
  unfold validateManualPolicy policyInBounds
  split_ifs with h1 h2 h3 h4
  · exact ⟨⟨fun h => by simp at h, fun h => absurd h.1 (by omega)⟩, fun _ => rfl⟩
  · exact ⟨⟨fun h => by simp at h, fun h => absurd h.2.1 (by omega)⟩, fun _ => rfl⟩
  · exact ⟨⟨fun h => by simp at h, fun h => absurd h.2.2.1 (by linarith)⟩, fun _ => rfl⟩
  · exact ⟨⟨fun h => by simp at h, fun h => absurd h.2.2.2 (by linarith)⟩, fun _ => rfl⟩
  · refine ⟨⟨fun _ => ⟨by omega, by omega, by linarith, by linarith⟩, fun _ => rfl⟩, ?_⟩
    exact fun hn => absurd ⟨by omega, by omega, by linarith, by linarith⟩ hn

/-- C8 witness: the out-of-bounds manual policy with targetTokens 2000
is rejected with PolicyOutOfBounds. -/
theorem C8_manual_policy_bounds_witness :
    validateManualPolicy ⟨2000, 1/5, .structureAware, "manual"⟩ =
      .error .policyOutOfBounds :=
  (C8_manual_policy_bounds ⟨2000, 1/5, .structureAware, "manual"⟩).2 (by decide)

/-- C3: for every document and every policy, the chunks returned by the
splitter, when each chunk's overlap span is trimmed and the
non-overlapping spans are concatenated in ordinal order, equal the
original document text exactly; ordinals are 0,1,... in list order. -/
theorem C3_split_round_trip (doc : List (List String)) (p : ChunkPolicy) :
    ((split doc p).map Chunk.nonOverlapSpan).flatten = docText doc ∧
      (split doc p).map Chunk.ordinal = List.range (split doc p).length := by
  have hunits : (unitsOf doc p).flatten = doc.flatten := by
    unfold unitsOf
    cases p.boundaryMode
    · rfl
    · exact flatten_map_singleton _
  have hspan : (split doc p).map Chunk.nonOverlapSpan =
      (splitGo p.targetTokens (overlapWidth p) (unitsOf doc p) [] []).map
        (fun pr => pr.1.drop pr.2) := by
    unfold split
    rw [List.map_map]
    have hfun : (Chunk.nonOverlapSpan ∘
        fun e : Nat × (List String × Nat) => (⟨e.1, e.2.1, e.2.2⟩ : Chunk)) =
        (fun pr : List String × Nat => pr.1.drop pr.2) ∘ Prod.snd := rfl
    rw [hfun, ← List.map_map, List.enum_map_snd]
  constructor
  · rw [hspan, splitGo_roundtrip]
    simpa [docText] using hunits
  · unfold split
    rw [List.map_map]
    have hfun : (Chunk.ordinal ∘
        fun e : Nat × (List String × Nat) => (⟨e.1, e.2.1, e.2.2⟩ : Chunk)) =
        Prod.fst := rfl
    rw [hfun, List.enum_map_fst]
    simp

/-- C9: for every inbound turn request {query, sessionId}, the
turn-start handler returns {turnId, sessionId} with the same sessionId,
and the stream the client then connects to is addressed by the pair
(sessionId, turnId) in the WebSocket URL. -/
theorem C9_turn_start_addressing (gen : QueryStartRequest → String)
    (req : QueryStartRequest) (base : String) :
    (handleQueryStart gen req).sessionId = req.sessionId ∧
      wsUrl base (handleQueryStart gen req) =
        base ++ "/ws/stream?session_id=" ++ req.sessionId ++ "&turn_id=" ++
          (handleQueryStart gen req).turnId :=
  ⟨rfl, rfl⟩

/-- A chat-view state mid-turn: one committed user message and a
partial streamed answer in the streaming buffer. -/
def chatDemoState : ChatState :=
  ⟨[⟨"user-1", "user", "What is project X?", "t0"⟩], true, "QUANTUM LEAP 42"⟩

/-- C6 counterexample: a partial answer present in the streaming buffer
before the failure is no longer anywhere in the client state after the
error path of handleSubmit runs — the catch block appends a generic
error message and the finally block clears the streamed content, so the
partial answer is not preserved. -/
theorem C6_partial_answer_counterexample :
    preservedOn "QUANTUM LEAP 42" chatDemoState ∧
      ¬ preservedOn "QUANTUM LEAP 42"
        (handleSubmitError "error-2" "t1" chatDemoState) := by
  decide

/-- C6 (amended): if a turn fails, the transcript messages committed
before the failure are preserved and a fixed error message is appended,
but the turn's streamed partial content buffer is cleared rather than
preserved, and the streaming flag is dropped. -/
theorem C6_error_path_frame (id timestamp : String) (st : ChatState) :
    (handleSubmitError id timestamp st).messages =
        st.messages ++ [chatErrorMessage id timestamp] ∧
      (handleSubmitError id timestamp st).streamingContent = "" ∧
      (handleSubmitError id timestamp st).isStreaming = false :=
  ⟨rfl, rfl, rfl⟩

/-- If no stop condition fires at `k`, then in particular the window
`1..k+1` is within the budget guard and `k` is below both `kMax` and
the candidate count. -/
theorem stopCheck_none_facts {cands : List Candidate} {kMin kMax tokenBudget : Nat}
    {eps : ℚ} {cov : List Candidate → Nat → Bool} {k : Nat}
    (h : stopCheck cands kMin kMax tokenBudget eps cov k = none) :
    withinBudget (cumCost cands (k + 1)) tokenBudget = true ∧ k < kMax := by
  unfold stopCheck at h
  split_ifs at h with hb hg hc hk
  push_neg at hb hk
  exact ⟨by simpa using hb, hk.1⟩

/-- The dynamic-k loop never returns less than its starting `k`. -/
theorem chooseKLoop_ge (cands : List Candidate) (kMin kMax tokenBudget : Nat)
    (eps : ℚ) (cov : List Candidate → Nat → Bool) (fuel k : Nat) :
    k ≤ (chooseKLoop cands kMin kMax tokenBudget eps cov fuel k).1 := by
  induction fuel generalizing k with
  | zero => exact le_refl _
  | succ fuel ih =>
      unfold chooseKLoop
      cases h : stopCheck cands kMin kMax tokenBudget eps cov k with
      | some r => exact le_refl _
      | none => exact le_trans (Nat.le_succ k) (ih (k + 1))

/-- The dynamic-k loop never grows the window past `kMax`. -/
theorem chooseKLoop_le (cands : List Candidate) (kMin kMax tokenBudget : Nat)
    (eps : ℚ) (cov : List Candidate → Nat → Bool) (fuel k : Nat)
    (hk : k ≤ kMax) :
    (chooseKLoop cands kMin kMax tokenBudget eps cov fuel k).1 ≤ kMax := by
  induction fuel generalizing k with
  | zero => exact hk
  | succ fuel ih =>
      unfold chooseKLoop
      cases h : stopCheck cands kMin kMax tokenBudget eps cov k with
      | some r => exact hk
      | none => exact ih (k + 1) (stopCheck_none_facts h).2

/-- The dynamic-k loop preserves the budget guard: if the starting
window is within `0.9 * tokenBudget`, so is the returned window. -/
theorem chooseKLoop_budget (cands : List Candidate) (kMin kMax tokenBudget : Nat)
    (eps : ℚ) (cov : List Candidate → Nat → Bool) (fuel k : Nat)
    (hk : 10 * cumCost cands k ≤ 9 * tokenBudget) :
    10 * cumCost cands (chooseKLoop cands kMin kMax tokenBudget eps cov fuel k).1 ≤
      9 * tokenBudget := by
  induction fuel generalizing k with
  | zero => exact hk
  | succ fuel ih =>
      unfold chooseKLoop
      cases h : stopCheck cands kMin kMax tokenBudget eps cov k with
      | some r => exact hk
      | none =>
          refine ih (k + 1) ?_
          have := (stopCheck_none_facts h).1
          simpa [withinBudget] using this

/-- C2 counterexample: with kMin = 1, kMax = 3, tokenBudget = 100 and a
single candidate costing 1000 tokens, chooseK keeps kChosen within
[kMin, kMax] yet the cumulative token cost of the selection (1000)
exceeds tokenBudget * 0.9 = 90 — the budget guard only stops the window
from growing and never shrinks the initial kMin-chunk window. -/
theorem C2_budget_counterexample :
    1 ≤ (chooseK [⟨"c0", 1, 1000⟩] 1 3 100 (1/20) (fun _ _ => false)).kChosen ∧
      (chooseK [⟨"c0", 1, 1000⟩] 1 3 100 (1/20) (fun _ _ => false)).kChosen ≤ 3 ∧
      ¬ 10 * (((chooseK [⟨"c0", 1, 1000⟩] 1 3 100 (1/20)
          (fun _ _ => false)).selectedChunks.map Candidate.tokenCount).sum) ≤
        9 * 100 := by
  decide

/-- C2 (amended): for every candidate list and parameters with
1 ≤ kMin ≤ kMax, at least kMin candidates, and an initial kMin-chunk
window within tokenBudget * 0.9, chooseK returns
kMin ≤ kChosen ≤ kMax with kChosen ≥ 1, and the cumulative token cost
of the selected chunks never exceeds tokenBudget * 0.9 (stated exactly
as 10 * cost ≤ 9 * tokenBudget). -/
theorem C2_chooseK_bounds (cands : List Candidate) (kMin kMax tokenBudget : Nat)
    (eps : ℚ) (cov : List Candidate → Nat → Bool)
    (h1 : 1 ≤ kMin) (h2 : kMin ≤ kMax) (h3 : kMin ≤ cands.length)
    (h4 : 10 * cumCost cands kMin ≤ 9 * tokenBudget) :
    kMin ≤ (chooseK cands kMin kMax tokenBudget eps cov).kChosen ∧
      (chooseK cands kMin kMax tokenBudget eps cov).kChosen ≤ kMax ∧
      1 ≤ (chooseK cands kMin kMax tokenBudget eps cov).kChosen ∧
      10 * (((chooseK cands kMin kMax tokenBudget eps cov).selectedChunks.map
          Candidate.tokenCount).sum) ≤ 9 * tokenBudget := by
  have hne : cands.isEmpty = false := by
    cases cands with
    | nil => simp at h3; omega
    | cons a t => rfl
  have hstart : min kMin cands.length = kMin := min_eq_left h3
  unfold chooseK
  rw [hne]
  simp only [Bool.false_eq_true, if_false, hstart]
  refine ⟨?_, ?_, ?_, ?_⟩
  · exact chooseKLoop_ge cands kMin kMax tokenBudget eps cov (kMax + 1) kMin
  · exact chooseKLoop_le cands kMin kMax tokenBudget eps cov (kMax + 1) kMin h2
  · exact le_trans h1
      (chooseKLoop_ge cands kMin kMax tokenBudget eps cov (kMax + 1) kMin)
  · exact chooseKLoop_budget cands kMin kMax tokenBudget eps cov (kMax + 1) kMin h4

/-- C2 witness: the amended bounds at a concrete input — three
candidates of 10 tokens each, kMin = 1, kMax = 2, tokenBudget = 1000. -/
theorem C2_chooseK_bounds_witness :
    1 ≤ (chooseK [⟨"a", 9/10, 10⟩, ⟨"b", 8/10, 10⟩, ⟨"c", 7/10, 10⟩] 1 2 1000
        (1/20) (fun _ _ => false)).kChosen ∧
      (chooseK [⟨"a", 9/10, 10⟩, ⟨"b", 8/10, 10⟩, ⟨"c", 7/10, 10⟩] 1 2 1000
        (1/20) (fun _ _ => false)).kChosen ≤ 2 ∧
      1 ≤ (chooseK [⟨"a", 9/10, 10⟩, ⟨"b", 8/10, 10⟩, ⟨"c", 7/10, 10⟩] 1 2 1000
        (1/20) (fun _ _ => false)).kChosen ∧
      10 * (((chooseK [⟨"a", 9/10, 10⟩, ⟨"b", 8/10, 10⟩, ⟨"c", 7/10, 10⟩] 1 2 1000
        (1/20) (fun _ _ => false)).selectedChunks.map Candidate.tokenCount).sum) ≤
        9 * 1000 :=
  C2_chooseK_bounds [⟨"a", 9/10, 10⟩, ⟨"b", 8/10, 10⟩, ⟨"c", 7/10, 10⟩] 1 2 1000
    (1/20) (fun _ _ => false) (by decide) (by decide) (by decide) (by decide)

/-- The candidate list of Scenario B: similarity scores
[0.91, 0.90, 0.89, 0.40, 0.38], each candidate costing 100 tokens. -/
def scenarioBCands : List Candidate :=
  [⟨"b0", 91/100, 100⟩, ⟨"b1", 90/100, 100⟩, ⟨"b2", 89/100, 100⟩,
    ⟨"b3", 40/100, 100⟩, ⟨"b4", 38/100, 100⟩]

/-- C7: chooseK on the Scenario B scores with kMin = 2, kMax = 5,
ε = 0.05 (an ample token budget and a quiescent coverage detector)
returns kChosen = 3 with stopReason = marginal-gain. -/
theorem C7_scenarioB_marginal_gain :
    (chooseK scenarioBCands 2 5 100000 (5/100) (fun _ _ => false)).kChosen = 3 ∧
      (chooseK scenarioBCands 2 5 100000 (5/100)
        (fun _ _ => false)).stopReason = .marginalGain := by
  have hs2 : stopCheck scenarioBCands 2 5 100000 (5/100) (fun _ _ => false) 2 = none := by
    norm_num [stopCheck, withinBudget, cumCost, scenarioBCands, normGain, gainAt]
  have hs3 : stopCheck scenarioBCands 2 5 100000 (5/100) (fun _ _ => false) 3 =
      some .marginalGain := by
    norm_num [stopCheck, withinBudget, cumCost, scenarioBCands, normGain, gainAt]
  have hloop : chooseKLoop scenarioBCands 2 5 100000 (5/100) (fun _ _ => false) 6 2 =
      (3, .marginalGain) := by
    unfold chooseKLoop
    rw [hs2]
    unfold chooseKLoop
    rw [hs3]
  have hrun : chooseK scenarioBCands 2 5 100000 (5/100) (fun _ _ => false) =
      ⟨scenarioBCands.take 3, 3, .marginalGain⟩ := by
    unfold chooseK
    rw [show scenarioBCands.isEmpty = false from rfl]
    simp only [Bool.false_eq_true, if_false]
    rw [show min 2 scenarioBCands.length = 2 from rfl, hloop]
  rw [hrun]
  exact ⟨rfl, rfl⟩

/-- Every citation event emitted by the streaming body names a chunkId
in the selected set: markers not bound to a selected chunk emit
nothing. -/
theorem emitBody_citation_selected (selected : List String) :
    ∀ (script : List GenOut) (seen : List String) (l : Nat) (c : String),
      Event.citation l c ∈ emitBody selected script seen → c ∈ selected := by
  intro script
  induction script with
  | nil => intro seen l c h; simp [emitBody] at h
  | cons g rest ih =>
      intro seen l c h
      cases g with
      | tok t =>
          simp only [emitBody, List.mem_cons] at h
          rcases h with h | h
          · cases h
          · exact ih seen l c h
      | cite cid =>
          by_cases hsel : cid ∈ selected
          · by_cases hseen : cid ∈ seen
            · simp only [emitBody, if_pos hsel, if_pos hseen, List.mem_cons] at h
              rcases h with h | h
              · cases h; exact hsel
              · exact ih seen l c h
            · simp only [emitBody, if_pos hsel, if_neg hseen, List.mem_cons] at h
              rcases h with h | h
              · cases h; exact hsel
              · exact ih (seen ++ [cid]) l c h
          · simp only [emitBody, if_neg hsel] at h
            exact ih seen l c h

/-- Every event emitted by the streaming body is a token or a citation
event. -/
theorem emitBody_token_or_citation (selected : List String) :
    ∀ (script : List GenOut) (seen : List String) (e : Event),
      e ∈ emitBody selected script seen →
        (∃ t, e = .token t) ∨ ∃ l c, e = .citation l c := by
  intro script
  induction script with
  | nil => intro seen e h; simp [emitBody] at h
  | cons g rest ih =>
      intro seen e h
      cases g with
      | tok t =>
          simp only [emitBody, List.mem_cons] at h
          rcases h with h | h
          · exact .inl ⟨t, h⟩
          · exact ih seen e h
      | cite cid =>
          by_cases hsel : cid ∈ selected
          · by_cases hseen : cid ∈ seen
            · simp only [emitBody, if_pos hsel, if_pos hseen, List.mem_cons] at h
              rcases h with h | h
              · exact .inr ⟨_, _, h⟩
              · exact ih seen e h
            · simp only [emitBody, if_pos hsel, if_neg hseen, List.mem_cons] at h
              rcases h with h | h
              · exact .inr ⟨_, _, h⟩
              · exact ih (seen ++ [cid]) e h
          · simp only [emitBody, if_neg hsel] at h
            exact ih seen e h

/-- A leading start event contributes no first-use label. -/
theorem firstUseLabels_cons_start (m : String) (es : List Event)
    (seen : List String) :
    firstUseLabels (.start m :: es) seen = firstUseLabels es seen := rfl

/-- An event list without citation events contributes no first-use
labels. -/
theorem firstUseLabels_no_citation :
    ∀ (es : List Event) (seen : List String),
      (∀ l c, Event.citation l c ∉ es) → firstUseLabels es seen = [] := by
  intro es
  induction es with
  | nil => intro seen _; rfl
  | cons e rest ih =>
      intro seen h
      cases e with
      | citation l c => exact absurd (List.mem_cons_self _ _) (h l c)
      | start m =>
          simp only [firstUseLabels]
          exact ih seen fun l c hm => h l c (List.mem_cons_of_mem _ hm)
      | token t =>
          simp only [firstUseLabels]
          exact ih seen fun l c hm => h l c (List.mem_cons_of_mem _ hm)
      | sources ids =>
          simp only [firstUseLabels]
          exact ih seen fun l c hm => h l c (List.mem_cons_of_mem _ hm)
      | done a b =>
          simp only [firstUseLabels]
          exact ih seen fun l c hm => h l c (List.mem_cons_of_mem _ hm)
      | error a b =>
          simp only [firstUseLabels]
          exact ih seen fun l c hm => h l c (List.mem_cons_of_mem _ hm)

/-- First-use labels in the streaming body (followed by any
citation-free tail) continue the consecutive run starting one past the
number of chunkIds already labelled. -/
theorem emitBody_firstUse_range (selected : List String) :
    ∀ (script : List GenOut) (seen : List String) (tail : List Event),
      (∀ l c, Event.citation l c ∉ tail) →
      ∃ n, firstUseLabels (emitBody selected script seen ++ tail) seen =
        List.range' (seen.length + 1) n := by
  intro script
  induction script with
  | nil =>
      intro seen tail htail
      exact ⟨0, by simp [emitBody, firstUseLabels_no_citation tail seen htail]⟩
  | cons g rest ih =>
      intro seen tail htail
      cases g with
      | tok t =>
          simp only [emitBody, List.cons_append, firstUseLabels]
          exact ih seen tail htail
      | cite c =>
          by_cases hsel : c ∈ selected
          · by_cases hseen : c ∈ seen
            · simp only [emitBody, if_pos hsel, if_pos hseen, List.cons_append,
                firstUseLabels]
              exact ih seen tail htail
            · simp only [emitBody, if_pos hsel, if_neg hseen, List.cons_append,
                firstUseLabels]
              obtain ⟨n, hn⟩ := ih (seen ++ [c]) tail htail
              refine ⟨n + 1, ?_⟩
              rw [hn, range'_succ_cons]
              have hlen : (seen ++ [c]).length + 1 = seen.length + 1 + 1 := by simp
              rw [hlen]
          · simp only [emitBody, if_neg hsel]
            exact ih seen tail htail

/-- C1: every citation event in a coordinator turn references a chunkId
present in that turn's RetrievalDecision.selectedChunks; no citation
ever references a chunk outside the retrieved set. -/
theorem C1_citations_within_selected (model : String)
    (decision : RetrievalDecision) (script : List GenOut) (tokens ms : Nat)
    (l : Nat) (c : String)
    (h : Event.citation l c ∈ coordinatorRun model decision script tokens ms) :
    c ∈ decision.selectedChunks.map Candidate.chunkId := by
  unfold coordinatorRun at h
  rw [List.cons_append, List.mem_cons] at h
  rcases h with h | h
  · cases h
  · rw [List.mem_append] at h
    rcases h with h | h
    · exact emitBody_citation_selected _ script [] l c h
    · simp at h

/-- The retrieval decision of the C1 witness turn: one selected chunk
with chunkId "docA#1". -/
def c1DemoDecision : RetrievalDecision :=
  ⟨[⟨"docA#1", 9/10, 50⟩], 1, .kMaxReached⟩

/-- C1 witness: in a concrete turn whose generator cites "docA#1", the
citation event's chunkId is in the selected set. -/
theorem C1_citations_within_selected_witness :
    "docA#1" ∈ (c1DemoDecision.selectedChunks.map Candidate.chunkId) :=
  C1_citations_within_selected "m" c1DemoDecision [.cite "docA#1"] 3 7 1 "docA#1"
    (by simp [coordinatorRun, emitBody, c1DemoDecision])

/-- C5: within every turn the emitted event sequence is exactly one
start event, then any interleaving of token and citation events, then
one sources event, then one end event; and the citation labels at first
use form the consecutive run 1, 2, 3, ... in stream order. -/
theorem C5_turn_event_shape (model : String) (decision : RetrievalDecision)
    (script : List GenOut) (tokens ms : Nat) :
    TurnShaped (coordinatorRun model decision script tokens ms) ∧
      firstUseLabels (coordinatorRun model decision script tokens ms) [] =
        List.range' 1
          (firstUseLabels (coordinatorRun model decision script tokens ms) []).length := by
  constructor
  · exact ⟨model, emitBody (decision.selectedChunks.map Candidate.chunkId) script [],
      decision.selectedChunks.map Candidate.chunkId, tokens, ms, rfl,
      fun e he => emitBody_token_or_citation _ script [] e he⟩
  · obtain ⟨n, hn⟩ := emitBody_firstUse_range
      (decision.selectedChunks.map Candidate.chunkId) script []
      [.sources (decision.selectedChunks.map Candidate.chunkId), .done tokens ms]
      (by intro l c hc; simp at hc)
    unfold coordinatorRun
    rw [List.cons_append, firstUseLabels_cons_start]
    simp only [List.length_nil, Nat.zero_add] at hn
    rw [hn]
    simp

/-- Every executor step only appends to the settlement list. -/
theorem clientStep_settled_mono (ctx : TurnCtx) (st : TurnState) (e : NetEvent) :
    ∃ t, (clientStep ctx st e).settled = st.settled ++ t := by
  cases e with
  | msg m =>
      cases m with
      | startMsg mo => exact ⟨[], by simp [clientStep]⟩
      | tokenMsg t => exact ⟨[], by simp [clientStep]⟩
      | citationMsg l c => exact ⟨[], by simp [clientStep]⟩
      | sourcesMsg ids => exact ⟨[], by simp [clientStep]⟩
      | endMsg ms => exact ⟨_, rfl⟩
      | errorMsg d => exact ⟨_, rfl⟩
  | wsError =>
      by_cases h : st.isComplete
      · exact ⟨[], by simp [clientStep, h]⟩
      · exact ⟨[.resolved (fallbackErrorResponse ctx)], by simp [clientStep, h]⟩
  | wsClose =>
      by_cases h : st.isComplete
      · exact ⟨[], by simp [clientStep, h]⟩
      · exact ⟨[.resolved (fallbackCloseResponse ctx)], by simp [clientStep, h]⟩
  | timeout =>
      by_cases h : st.isComplete
      · exact ⟨[], by simp [clientStep, h]⟩
      · exact ⟨[.resolved (fallbackTimeoutResponse ctx)], by simp [clientStep, h]⟩

/-- Running further events only appends to the settlement list. -/
theorem foldl_settled_mono (ctx : TurnCtx) :
    ∀ (events : List NetEvent) (st : TurnState),
      ∃ t, (events.foldl (clientStep ctx) st).settled = st.settled ++ t := by
  intro events
  induction events with
  | nil => intro st; exact ⟨[], by simp⟩
  | cons e rest ih =>
      intro st
      obtain ⟨t1, h1⟩ := clientStep_settled_mono ctx st e
      obtain ⟨t2, h2⟩ := ih (clientStep ctx st e)
      exact ⟨t1 ++ t2, by rw [List.foldl_cons, h2, h1, List.append_assoc]⟩

/-- The `isComplete` flag is never unset by a step. -/
theorem clientStep_complete_mono (ctx : TurnCtx) (st : TurnState) (e : NetEvent)
    (h : st.isComplete = true) : (clientStep ctx st e).isComplete = true := by
  cases e with
  | msg m => cases m <;> simp [clientStep, h]
  | wsError => simp [clientStep, h]
  | wsClose => simp [clientStep, h]
  | timeout => simp [clientStep, h]

/-- The `isComplete` flag survives any further run. -/
theorem foldl_complete_mono (ctx : TurnCtx) :
    ∀ (events : List NetEvent) (st : TurnState), st.isComplete = true →
      (events.foldl (clientStep ctx) st).isComplete = true := by
  intro events
  induction events with
  | nil => intro st h; exact h
  | cons e rest ih =>
      intro st h
      exact ih (clientStep ctx st e) (clientStep_complete_mono ctx st e h)

/-- An END or ERROR frame sets the `isComplete` flag. -/
theorem clientStep_terminal_complete (ctx : TurnCtx) (st : TurnState)
    (e : NetEvent) (h : e.isTerminalMsg = true) :
    (clientStep ctx st e).isComplete = true := by
  cases e with
  | msg m => cases m <;> simp_all [clientStep, NetEvent.isTerminalMsg]
  | wsError => simp [NetEvent.isTerminalMsg] at h
  | wsClose => simp [NetEvent.isTerminalMsg] at h
  | timeout => simp [NetEvent.isTerminalMsg] at h

/-- A late callback (`onerror`, `onclose`, timeout) on a completed turn
is a no-op: the `if (!isComplete)` guard fails. -/
theorem clientStep_late_complete_id (ctx : TurnCtx) (st : TurnState)
    (e : NetEvent) (hc : st.isComplete = true) (hl : e.isLate = true) :
    clientStep ctx st e = st := by
  cases e with
  | msg m => cases m <;> simp [NetEvent.isLate] at hl
  | wsError => simp [clientStep, hc]
  | wsClose => simp [clientStep, hc]
  | timeout => simp [clientStep, hc]

/-- If a run contains an END or ERROR frame, the resulting state is
complete. -/
theorem runClient_complete_of_terminal (ctx : TurnCtx) (pre : List NetEvent)
    (h : ∃ e ∈ pre, NetEvent.isTerminalMsg e = true) :
    (runClient ctx pre).isComplete = true := by
  obtain ⟨e, he, ht⟩ := h
  obtain ⟨s, t, rfl⟩ := List.append_of_mem he
  unfold runClient
  rw [List.foldl_append, List.foldl_cons]
  exact foldl_complete_mono ctx t _
    (clientStep_terminal_complete ctx _ e ht)

/-- Once complete, a run of late callbacks leaves the state unchanged. -/
theorem foldl_late_id (ctx : TurnCtx) :
    ∀ (post : List NetEvent) (st : TurnState), st.isComplete = true →
      (∀ e ∈ post, NetEvent.isLate e = true) →
      post.foldl (clientStep ctx) st = st := by
  intro post
  induction post with
  | nil => intro st _ _; rfl
  | cons e rest ih =>
      intro st hc hl
      rw [List.foldl_cons,
        clientStep_late_complete_id ctx st e hc (hl e (List.mem_cons_self _ _))]
      exact ih st hc fun x hx => hl x (List.mem_cons_of_mem _ hx)

/-- A state in which completion implies at least one settlement. -/
def SettledIfComplete (st : TurnState) : Prop :=
  st.isComplete = true → st.settled ≠ []

/-- Every step preserves `SettledIfComplete`. -/
theorem clientStep_settledIfComplete (ctx : TurnCtx) (st : TurnState)
    (e : NetEvent) (h : SettledIfComplete st) :
    SettledIfComplete (clientStep ctx st e) := by
  unfold SettledIfComplete at *
  cases e with
  | msg m =>
      cases m with
      | startMsg mo => simpa [clientStep] using h
      | tokenMsg t => simpa [clientStep] using h
      | citationMsg l c => simpa [clientStep] using h
      | sourcesMsg ids => simpa [clientStep] using h
      | endMsg ms => intro _; simp [clientStep]
      | errorMsg d => intro _; simp [clientStep]
  | wsError =>
      by_cases hc : st.isComplete
      · simpa [clientStep, hc] using h
      · intro hcontra
        simp [clientStep, hc] at hcontra
  | wsClose =>
      by_cases hc : st.isComplete
      · simpa [clientStep, hc] using h
      · intro hcontra
        simp [clientStep, hc] at hcontra
  | timeout =>
      by_cases hc : st.isComplete
      · simpa [clientStep, hc] using h
      · intro hcontra
        simp [clientStep, hc] at hcontra

/-- Every run preserves `SettledIfComplete`. -/
theorem foldl_settledIfComplete (ctx : TurnCtx) :
    ∀ (events : List NetEvent) (st : TurnState), SettledIfComplete st →
      SettledIfComplete (events.foldl (clientStep ctx) st) := by
  intro events
  induction events with
  | nil => intro st h; exact h
  | cons e rest ih =>
      intro st h
      exact ih (clientStep ctx st e) (clientStep_settledIfComplete ctx st e h)

/-- The context of the C4 demonstration turn. -/
def c4DemoCtx : TurnCtx := ⟨"what is x", "s1", "t1"⟩

/-- C4 counterexample: a turn that streams a token and then suffers a
transport disconnect (ws.onclose with the turn not complete) ends
settled — but with no rejection at all: the failure is replaced by a
resolved fallback non-error answer instead of a terminal error. -/
theorem C4_transport_counterexample :
    (runClient c4DemoCtx
        [.msg (.startMsg "m"), .msg (.tokenMsg "Hel"), .wsClose]).settled.any
      Settled.isRejected = false ∧
      (runClient c4DemoCtx
        [.msg (.startMsg "m"), .msg (.tokenMsg "Hel"), .wsClose]).settled ≠ [] := by
  decide

/-- C4 (amended): a failure surfaced as an ERROR event ends the turn
with a single rejection carrying the error detail and marks the turn
complete; a transport error, an unexpected close, or the 120-second
timeout on an incomplete turn settles it with a resolved fallback
non-error answer instead of a terminal error; and any turn whose event
sequence includes the timeout never ends unsettled — it cannot hang
indefinitely. -/
theorem C4_failure_handling (ctx : TurnCtx) (st : TurnState) (d : String)
    (e : NetEvent) (events : List NetEvent) :
    ((clientStep ctx st (.msg (.errorMsg d))).settled =
        st.settled ++ [.rejected (if d = "" then "Streaming error" else d)] ∧
      (clientStep ctx st (.msg (.errorMsg d))).isComplete = true) ∧
      (e.isLate = true → st.isComplete = false →
        ∃ r, (clientStep ctx st e).settled = st.settled ++ [.resolved r]) ∧
      (.timeout ∈ events → (runClient ctx events).settled ≠ []) := by
  refine ⟨⟨rfl, rfl⟩, ?_, ?_⟩
  · intro hl hc
    cases e with
    | msg m => cases m <;> simp [NetEvent.isLate] at hl
    | wsError =>
        exact ⟨fallbackErrorResponse ctx, by simp [clientStep, hc]⟩
    | wsClose =>
        exact ⟨fallbackCloseResponse ctx, by simp [clientStep, hc]⟩
    | timeout =>
        exact ⟨fallbackTimeoutResponse ctx, by simp [clientStep, hc]⟩
  · intro hmem
    obtain ⟨s, t, rfl⟩ := List.append_of_mem hmem
    unfold runClient
    rw [List.foldl_append, List.foldl_cons]
    have hinv : SettledIfComplete (s.foldl (clientStep ctx) initTurnState) :=
      foldl_settledIfComplete ctx s initTurnState (by intro h; simp [initTurnState] at h)
    have hne : (clientStep ctx (s.foldl (clientStep ctx) initTurnState) .timeout).settled ≠ [] := by
      by_cases hc : (s.foldl (clientStep ctx) initTurnState).isComplete
      · rw [clientStep_late_complete_id ctx _ .timeout hc rfl]
        exact hinv hc
      · simp [clientStep, hc]
    obtain ⟨tail, htail⟩ := foldl_settled_mono ctx t
      (clientStep ctx (s.foldl (clientStep ctx) initTurnState) .timeout)
    rw [htail]
    intro hcontra
    rcases List.append_eq_nil.mp hcontra with ⟨h1, _⟩
    exact hne h1

/-- C4 witness: the amended behavior at concrete inputs — an ERROR
frame rejects with its detail; a wsClose on a fresh turn resolves with a
fallback answer; a turn consisting of the timeout alone is settled. -/
theorem C4_failure_handling_witness :
    (clientStep c4DemoCtx initTurnState (.msg (.errorMsg "boom"))).settled =
        [.rejected "boom"] ∧
      (∃ r, (clientStep c4DemoCtx initTurnState .wsClose).settled =
        initTurnState.settled ++ [.resolved r]) ∧
      (runClient c4DemoCtx [.timeout]).settled ≠ [] := by
  refine ⟨?_, ?_, ?_⟩
  · have h := (C4_failure_handling c4DemoCtx initTurnState "boom" .wsClose [.timeout]).1.1
    simpa [initTurnState] using h
  · exact (C4_failure_handling c4DemoCtx initTurnState "boom" .wsClose [.timeout]).2.1
      rfl rfl
  · exact (C4_failure_handling c4DemoCtx initTurnState "boom" .wsClose [.timeout]).2.2
      (List.mem_singleton.mpr rfl)

/-- C10: the streaming query promise settles exactly once per turn —
once an END or ERROR frame has settled it (setting isComplete), a later
WebSocket error, WebSocket close, or the 120-second timeout performs no
further settlement. -/
theorem C10_settles_at_most_once (ctx : TurnCtx) (pre post : List NetEvent)
    (h1 : ∃ e ∈ pre, NetEvent.isTerminalMsg e = true)
    (h2 : ∀ e ∈ post, NetEvent.isLate e = true) :
    (runClient ctx (pre ++ post)).settled = (runClient ctx pre).settled := by
  have hc := runClient_complete_of_terminal ctx pre h1
  unfold runClient at *
  rw [List.foldl_append, foldl_late_id ctx post _ hc h2]

/-- C10 witness: after an END frame, a close and the timeout leave the
settlement list of the turn unchanged. -/
theorem C10_settles_at_most_once_witness :
    (runClient ⟨"q", "s2", "t2"⟩ ([.msg (.endMsg 5)] ++ [.wsClose, .timeout])).settled =
      (runClient ⟨"q", "s2", "t2"⟩ [.msg (.endMsg 5)]).settled :=
  C10_settles_at_most_once ⟨"q", "s2", "t2"⟩ [.msg (.endMsg 5)] [.wsClose, .timeout]
    (by decide) (by decide)

end RagApp
